import Mathlib

/-!
Verification development for the unifont_utils repository.

The Python sources are shallowly embedded: pure functions become Lean
functions, mutation of an object becomes explicit state passing on a
structure, and code that raises exceptions returns Except String.
Machine integers are modelled with Nat / Int (Python integers are
unbounded, so no wrap-around is needed); bitwise operators on
non-negative values are modelled with the corresponding Nat operators.
-/

set_option autoImplicit false
set_option maxRecDepth 100000

/-- Model of Python range(n) for an integer argument: empty when n is
not positive, otherwise the naturals 0, 1, ..., n-1. -/
def pyRange (n : Int) : List Nat := List.range n.toNat

/-- The sixteen lowercase hexadecimal digit characters, in value order.
Python hex(n) renders with these digits. -/
def hexDigitsL : List Char := "0123456789abcdef".data

/-- The sixteen uppercase hexadecimal digit characters, in value order.
This is the set Validator.HEX_CHARS of base.py (as a list). -/
def hexDigitsU : List Char := "0123456789ABCDEF".data

/-- Lowercase hexadecimal digit character of a nibble value. -/
def hexDigitChar (d : Nat) : Char := hexDigitsL.getD d '0'

/-- Uppercase hexadecimal digit character of a nibble value. -/
def hexDigitCharU (d : Nat) : Char := hexDigitsU.getD d '0'

/-- Numeric value of a hexadecimal digit character, in any case.
Only meaningful on hexadecimal digit characters. -/
def hexVal (c : Char) : Nat :=
  if 97 ≤ c.toNat then c.toNat - 87
  else if 65 ≤ c.toNat then c.toNat - 55
  else c.toNat - 48

/-- Whether a character is one of the 22 characters accepted by Python
int(s, 16) inside a plain digit run (0-9, a-f, A-F).  Python also
accepts optional sign, 0x prefix, underscores and surrounding
whitespace; those inputs are rejected later by the HEX_CHARS check of
Validator.code_point, so the strict digit-run model is used here. -/
def isHexDigitCh (c : Char) : Bool := hexDigitsU.contains c || hexDigitsL.contains c

/-- Fuel-driven helper for toHexDigits; the fuel only serves to make
the recursion structural, and n itself is always enough fuel. -/
def toHexDigitsAux : Nat → Nat → List Char
  | 0, n => [hexDigitChar n]
  | fuel + 1, n =>
    if n < 16 then [hexDigitChar n]
    else toHexDigitsAux fuel (n / 16) ++ [hexDigitChar (n % 16)]

/-- Hexadecimal digit list of a natural number, most significant digit
first, lowercase: the model of Python hex(n)[2:] for n >= 0. -/
def toHexDigits (n : Nat) : List Char := toHexDigitsAux n n

/-- Value of a list of hexadecimal digit characters, the model of
Python int(s, 16) on a plain digit run. -/
def parseHexL (l : List Char) : Nat := l.foldl (fun a c => 16 * a + hexVal c) 0

/-- Value of a hexadecimal string (model of int(s, 16) on digit runs). -/
def parseHex (s : String) : Nat := parseHexL s.data

/-- Model of Python str.zfill(k): pad on the left with the character 0
up to length k. The embedded strings never start with a sign. -/
def zfill (s : String) (k : Nat) : String :=
  ⟨List.replicate (k - s.data.length) '0' ++ s.data⟩

/-- Model of Python (~x) & 0xFF on a non-negative integer. -/
def bnot8 (x : Nat) : Nat := 255 - x % 256

/-- True exactly on the ok constructor of Except. -/
def isOkE {ε α : Type} : Except ε α → Bool
  | .ok _ => true
  | .error _ => false

/-- Model of a Python list item assignment xs[i] = v: negative indices
count from the end; an index out of range on either side is an
IndexError, reported here as none. -/
def pySetList {α : Type} (l : List α) (i : Int) (v : α) : Option (List α) :=
  let n : Int := l.length
  let j : Int := if i < 0 then i + n else i
  if 0 ≤ j ∧ j < n then some (l.set j.toNat v) else none

/-- The bit-packing fold of ImgConverter.to_hex: the Python expression
reduce(lambda acc, pixel: (acc << 1) | (1 if pixel else 0), data, 0). -/
def bitsNat (data : List Int) : Nat :=
  data.foldl (fun acc pixel => acc <<< 1 ||| (if pixel ≠ 0 then 1 else 0)) 0

/-- Model of ImgConverter.to_hex (converter.py): packs the raster into
an integer and renders it as uppercase hexadecimal, left-zero-padded to
32 characters when the raster has 128 entries and to 64 otherwise. -/
def to_hex (data : List Int) : Except String String :=
  if data.isEmpty then
    .error "Unable to convert to .hex string. The glyph data is empty."
  else
    .ok (zfill ⟨(toHexDigits (bitsNat data)).map Char.toUpper⟩
          (if data.length = 128 then 32 else 64))

/-- Model of HexConverter.to_img_data (converter.py): the empty string
decodes to the empty raster; otherwise the string is parsed as a big
integer and width*height bits are emitted, most significant first. -/
def to_img_data (hex_str : String) (width : Nat := 16) (height : Nat := 16) : List Int :=
  if hex_str.data.isEmpty then []
  else
    (List.range (width * height)).reverse.map
      (fun i => ((parseHex hex_str >>> i &&& 1 : Nat) : Int))

/-- A left shift by one followed by or-ing in a single bit is the same
as doubling and adding the bit. -/
theorem shl_or_bit (a b : Nat) (hb : b < 2) : a <<< 1 ||| b = 2 * a + b := by
  interval_cases b
  · rw [Nat.or_zero, Nat.shiftLeft_eq]; ring
  · apply Nat.eq_of_testBit_eq
    intro i
    cases i with
    | zero =>
      simp [Nat.testBit_or, Nat.testBit_zero, Nat.shiftLeft_eq, Nat.mul_add_mod]
    | succ j =>
      rw [Nat.testBit_or, Nat.testBit_succ, Nat.testBit_succ, Nat.testBit_succ,
        Nat.shiftLeft_eq]
      have h1 : a * 2 ^ 1 / 2 = a := by omega
      have h2 : (2 * a + 1) / 2 = a := by omega
      have h3 : (1 : Nat) / 2 = 0 := by omega
      rw [h1, h2, h3]
      simp

/-- Appending one pixel to the raster doubles the packed integer and
adds the pixel's bit. -/
theorem bitsNat_snoc (r : List Int) (b : Int) :
    bitsNat (r ++ [b]) = 2 * bitsNat r + (if b ≠ 0 then 1 else 0) := by
  unfold bitsNat
  rw [List.foldl_append]
  simp only [List.foldl_cons, List.foldl_nil]
  exact shl_or_bit _ _ (by split <;> omega)

/-- Reading the packed integer back bit by bit, most significant bit
first, recovers a 0/1 raster. -/
theorem extract_bitsNat (r : List Int) (hr : ∀ x ∈ r, x = 0 ∨ x = 1) :
    (List.range r.length).reverse.map (fun i => ((bitsNat r >>> i &&& 1 : Nat) : Int)) = r := by
  induction r using List.reverseRecOn with
  | nil => rfl
  | append_singleton r' b ih =>
    have hb : b = 0 ∨ b = 1 := hr b (by simp)
    have hr' : ∀ x ∈ r', x = 0 ∨ x = 1 := fun x hx => hr x (by simp [hx])
    have hlen : (r' ++ [b]).length = r'.length + 1 := by simp
    rw [hlen, List.range_succ_eq_map, List.reverse_cons, List.map_append, List.map_reverse,
      List.map_map]
    have hn : bitsNat (r' ++ [b]) = 2 * bitsNat r' + (if b ≠ 0 then 1 else 0) := bitsNat_snoc r' b
    have h2 : bitsNat (r' ++ [b]) / 2 = bitsNat r' := by rw [hn]; split <;> omega
    have hfun : ((fun i : Nat => ((bitsNat (r' ++ [b]) >>> i &&& 1 : Nat) : Int)) ∘ Nat.succ)
        = (fun i : Nat => ((bitsNat r' >>> i &&& 1 : Nat) : Int)) := by
      funext i
      simp only [Function.comp_apply]
      rw [Nat.shiftRight_eq_div_pow, Nat.shiftRight_eq_div_pow, pow_succ',
        ← Nat.div_div_eq_div_mul, h2]
    rw [hfun, ← List.map_reverse, ih hr']
    have hlast : ((bitsNat (r' ++ [b]) >>> 0 &&& 1 : Nat) : Int) = b := by
      rw [Nat.shiftRight_zero, Nat.and_one_is_mod, hn]
      rcases hb with rfl | rfl <;> simp [Nat.mul_add_mod]
    simp only [List.map_cons, List.map_nil]
    rw [hlast]

/-- Folding one more digit into the running value multiplies it by 16
and adds the digit. -/
theorem parseHexL_snoc (l : List Char) (c : Char) :
    parseHexL (l ++ [c]) = 16 * parseHexL l + hexVal c := by
  unfold parseHexL
  rw [List.foldl_append]
  simp

/-- Parsing the rendered digits of n (through any digit-preserving
character transform) recovers n. -/
theorem parseHexL_map_aux (f : Char → Char)
    (hf : ∀ d, d < 16 → hexVal (f (hexDigitChar d)) = d) :
    ∀ fuel n, n ≤ fuel → parseHexL ((toHexDigitsAux fuel n).map f) = n := by
  intro fuel
  induction fuel with
  | zero =>
    intro n hn
    have : n = 0 := by omega
    subst this
    show parseHexL [f (hexDigitChar 0)] = 0
    have h0 : parseHexL [f (hexDigitChar 0)] = 16 * 0 + hexVal (f (hexDigitChar 0)) := rfl
    rw [h0, hf 0 (by omega)]
  | succ fuel ih =>
    intro n hn
    by_cases hlt : n < 16
    · show parseHexL (List.map f (if n < 16 then [hexDigitChar n]
        else toHexDigitsAux fuel (n / 16) ++ [hexDigitChar (n % 16)])) = n
      rw [if_pos hlt]
      show parseHexL [f (hexDigitChar n)] = n
      have h0 : parseHexL [f (hexDigitChar n)] = 16 * 0 + hexVal (f (hexDigitChar n)) := rfl
      rw [h0, hf n hlt]
      omega
    · show parseHexL (List.map f (if n < 16 then [hexDigitChar n]
        else toHexDigitsAux fuel (n / 16) ++ [hexDigitChar (n % 16)])) = n
      rw [if_neg hlt, List.map_append, List.map_singleton, parseHexL_snoc]
      have hle : n / 16 ≤ fuel := by
        have := Nat.div_lt_self (by omega : 0 < n) (by omega : 1 < 16)
        omega
      rw [ih (n / 16) hle, hf (n % 16) (Nat.mod_lt n (by omega))]
      omega

/-- Leading zero characters do not change the parsed value. -/
theorem parseHexL_replicate_zero (k : Nat) (l : List Char) :
    parseHexL (List.replicate k '0' ++ l) = parseHexL l := by
  induction k with
  | zero => simp
  | succ k ih =>
    rw [List.replicate_succ, List.cons_append]
    show List.foldl (fun a c => 16 * a + hexVal c) (16 * 0 + hexVal '0') _ = _
    have h0 : 16 * 0 + hexVal '0' = 0 := by decide
    rw [h0]
    exact ih

/-- The digit rendering of a natural number is never empty. -/
theorem toHexDigitsAux_ne_nil (fuel n : Nat) : toHexDigitsAux fuel n ≠ [] := by
  cases fuel with
  | zero => simp [toHexDigitsAux]
  | succ fuel =>
    show (if n < 16 then [hexDigitChar n]
      else toHexDigitsAux fuel (n / 16) ++ [hexDigitChar (n % 16)]) ≠ []
    split <;> simp

/-- Uppercasing a rendered digit and taking its value is the identity
on nibbles. -/
theorem hexVal_toUpper_digit : ∀ d, d < 16 → hexVal (Char.toUpper (hexDigitChar d)) = d := by
  decide

/-- C1. For every raster of length 128 or 256 with every element in
the set of 0 and 1, decoding the encoding returns the raster:
to_img_data (to_hex r) (r.length / 16) 16 = r, with to_hex rendering
an uppercase hex string zero-padded to 32 characters for length 128
and 64 characters for length 256. -/
theorem c1_converter_round_trip (r : List Int)
    (hlen : r.length = 128 ∨ r.length = 256)
    (hbits : ∀ x ∈ r, x = 0 ∨ x = 1) :
    (to_hex r).map (fun h => to_img_data h (r.length / 16) 16) = .ok r := by
  have hne : ¬ r.isEmpty := by
    cases r <;> simp_all
  rw [to_hex, if_neg hne]
  show Except.ok (to_img_data (zfill ⟨(toHexDigits (bitsNat r)).map Char.toUpper⟩
    (if r.length = 128 then 32 else 64)) (r.length / 16) 16) = Except.ok r
  congr 1
  have hsne : ¬ (zfill ⟨(toHexDigits (bitsNat r)).map Char.toUpper⟩
      (if r.length = 128 then 32 else 64)).data.isEmpty := by
    simp only [zfill, List.isEmpty_eq_true, List.append_eq_nil]
    intro h
    exact toHexDigitsAux_ne_nil _ _ (List.map_eq_nil_iff.mp h.2)
  rw [to_img_data, if_neg hsne]
  have hparse : parseHex (zfill ⟨(toHexDigits (bitsNat r)).map Char.toUpper⟩
      (if r.length = 128 then 32 else 64)) = bitsNat r := by
    show parseHexL (List.replicate _ '0' ++ (toHexDigits (bitsNat r)).map Char.toUpper) = _
    rw [parseHexL_replicate_zero]
    exact parseHexL_map_aux Char.toUpper hexVal_toUpper_digit (bitsNat r) (bitsNat r) le_rfl
  rw [hparse]
  have hw : r.length / 16 * 16 = r.length := by rcases hlen with h | h <;> rw [h]
  rw [hw]
  exact extract_bitsNat r hbits

/-- The concrete raster of the spec's codec test: alternating 0 and 1,
128 entries. -/
def c1SampleRaster : List Int := (List.range 128).map (fun i => (i % 2 : Int))

/-- Witness for C1 at the spec's concrete raster. -/
theorem c1_converter_round_trip_witness :
    (c1SampleRaster.length = 128 ∨ c1SampleRaster.length = 256)
      ∧ (∀ x ∈ c1SampleRaster, x = 0 ∨ x = 1)
      ∧ (to_hex c1SampleRaster).map
          (fun h => to_img_data h (c1SampleRaster.length / 16) 16) = .ok c1SampleRaster :=
  ⟨by decide, by decide, c1_converter_round_trip c1SampleRaster (by decide) (by decide)⟩

/-- Model of Validator.code_point (base.py) on an already-stringified
input: checks str.isalnum, parses with int(s, 16) (whose failure on a
non-digit-run raises ValueError, reported here as an error), checks the
0x10FFFF bound, uppercases, checks the HEX_CHARS set, and zero-pads to
6 characters when the (input) string is longer than 4 characters and
to 4 otherwise.  Python str.isalnum is modelled by Char.isAlphanum,
which agrees with it on ASCII; accepted inputs are ASCII here. -/
def codePointCore (s : String) : Except String String :=
  if ¬ (s.data ≠ [] ∧ s.data.all Char.isAlphanum) then
    .error "Invalid code point."
  else
    match (if s.data.all isHexDigitCh then some (parseHexL s.data) else none) with
    | none => .error "ValueError: invalid literal for int with base 16"
    | some v =>
      if v > 0x10FFFF then .error "Invalid code point."
      else
        let u := s.data.map Char.toUpper
        if u.all (fun c => hexDigitsU.contains c) then
          .ok (zfill ⟨u⟩ (if 4 < u.length then 6 else 4))
        else .error "Invalid character in code point."

/-- Validator.code_point on a string argument. -/
def code_point_of_str (s : String) : Except String String := codePointCore s

/-- Validator.code_point on a non-negative integer argument: the code
first applies hex(n)[2:] (minimal lowercase digits) and then proceeds
exactly as for strings. -/
def code_point_of_int (n : Nat) : Except String String := codePointCore ⟨toHexDigits n⟩

/-- Minimal uppercase hexadecimal rendering of a natural number. -/
def natToHexU (n : Nat) : String := ⟨(toHexDigits n).map Char.toUpper⟩

/-- Every character of the digit rendering is a rendered nibble. -/
theorem toHexDigitsAux_shape :
    ∀ fuel n, ∀ c ∈ toHexDigitsAux fuel n, ∃ d, d < 16 ∧ c = hexDigitChar d := by
  intro fuel
  induction fuel with
  | zero =>
    intro n c hc
    simp only [toHexDigitsAux, List.mem_singleton] at hc
    subst hc
    by_cases hn : n < 16
    · exact ⟨n, hn, rfl⟩
    · refine ⟨0, by omega, ?_⟩
      show hexDigitChar n = hexDigitChar 0
      unfold hexDigitChar
      rw [List.getD_eq_default]
      · rfl
      · simp [hexDigitsL]; omega
  | succ fuel ih =>
    intro n c hc
    show ∃ d, d < 16 ∧ c = hexDigitChar d
    rw [show toHexDigitsAux (fuel + 1) n = if n < 16 then [hexDigitChar n]
      else toHexDigitsAux fuel (n / 16) ++ [hexDigitChar (n % 16)] from rfl] at hc
    split at hc
    · simp only [List.mem_singleton] at hc
      subst hc
      exact ⟨n, by omega, rfl⟩
    · rw [List.mem_append] at hc
      rcases hc with hc | hc
      · exact ih (n / 16) c hc
      · simp only [List.mem_singleton] at hc
        subst hc
        exact ⟨n % 16, Nat.mod_lt n (by omega), rfl⟩

/-- The digit rendering has at least one character. -/
theorem toHexDigitsAux_length_pos (fuel n : Nat) : (toHexDigitsAux fuel n).length ≥ 1 := by
  cases fuel with
  | zero => simp [toHexDigitsAux]
  | succ fuel =>
    show (if n < 16 then [hexDigitChar n]
      else toHexDigitsAux fuel (n / 16) ++ [hexDigitChar (n % 16)]).length ≥ 1
    split <;> simp

/-- Digit count against a power of 16: the rendering of n fits in k
digits exactly when n is below 16 to the k. -/
theorem toHexDigitsAux_length_le :
    ∀ fuel n, n ≤ fuel → ∀ k, 1 ≤ k → ((toHexDigitsAux fuel n).length ≤ k ↔ n < 16 ^ k) := by
  intro fuel
  induction fuel with
  | zero =>
    intro n hn k hk
    have : n = 0 := by omega
    subst this
    simp only [toHexDigitsAux, List.length_singleton]
    constructor
    · intro _; exact Nat.pos_pow_of_pos k (by omega)
    · intro _; omega
  | succ fuel ih =>
    intro n hn k hk
    by_cases hlt : n < 16
    · rw [show toHexDigitsAux (fuel + 1) n = [hexDigitChar n] from by
        simp [toHexDigitsAux, hlt]]
      simp only [List.length_singleton]
      constructor
      · intro _
        calc n < 16 ^ 1 := by omega
        _ ≤ 16 ^ k := Nat.pow_le_pow_right (by omega) hk
      · intro _; omega
    · rw [show toHexDigitsAux (fuel + 1) n
        = toHexDigitsAux fuel (n / 16) ++ [hexDigitChar (n % 16)] from by
        simp [toHexDigitsAux, hlt]]
      rw [List.length_append, List.length_singleton]
      have hle : n / 16 ≤ fuel := by
        have := Nat.div_lt_self (by omega : 0 < n) (by omega : 1 < 16)
        omega
      cases k with
      | zero => omega
      | succ k' =>
        by_cases hk' : 1 ≤ k'
        · rw [show (toHexDigitsAux fuel (n / 16)).length + 1 ≤ k' + 1
            ↔ (toHexDigitsAux fuel (n / 16)).length ≤ k' from by omega]
          rw [ih (n / 16) hle k' hk']
          rw [pow_succ]
          rw [Nat.div_lt_iff_lt_mul (by omega : 0 < 16)]
        · have hk0 : k' = 0 := by omega
          subst hk0
          have h1 := toHexDigitsAux_length_pos fuel (n / 16)
          have h2 : (16 : Nat) ^ (0 + 1) = 16 := by norm_num
          rw [h2]
          omega

/-- Rendered nibbles are alphanumeric, are hexadecimal digits, and
uppercase into the HEX_CHARS set. -/
theorem digit_facts :
    ∀ d, d < 16 → (hexDigitChar d).isAlphanum = true
      ∧ isHexDigitCh (hexDigitChar d) = true
      ∧ hexDigitsU.contains (Char.toUpper (hexDigitChar d)) = true := by decide

/-- Any hexadecimal digit character is alphanumeric and uppercases
into the HEX_CHARS set. -/
theorem hexDigit_char_facts (c : Char) (hc : isHexDigitCh c = true) :
    c.isAlphanum = true ∧ hexDigitsU.contains (Char.toUpper c) = true := by
  have h : c ∈ hexDigitsU ∨ c ∈ hexDigitsL := by
    simp only [isHexDigitCh, Bool.or_eq_true] at hc
    rcases hc with h | h
    · exact Or.inl (List.elem_iff.mp h)
    · exact Or.inr (List.elem_iff.mp h)
  have hU : ∀ c ∈ hexDigitsU,
      c.isAlphanum = true ∧ hexDigitsU.contains (Char.toUpper c) = true := by decide
  have hL : ∀ c ∈ hexDigitsL,
      c.isAlphanum = true ∧ hexDigitsU.contains (Char.toUpper c) = true := by decide
  rcases h with h | h
  · exact hU c h
  · exact hL c h

/-- C8 counterexample. The claim says the result is zero-padded to
exactly 4 digits whenever the value fits in 4 hexadecimal digits, but
the accepted input 00001 (value 1) is returned as the 6-character
string 000001: the code pads by the input's length, not the value's
digit count. -/
theorem c8_counterexample :
    code_point_of_str "00001" = .ok "000001"
      ∧ parseHex "00001" ≤ 0xFFFF
      ∧ ("000001" : String).length ≠ 4 :=
  ⟨rfl, by decide, by decide⟩

/-- C8 (amended). For a non-negative integer input bounded by 0x10FFFF
the original rule holds: the result is the value's minimal uppercase
hexadecimal rendering zero-padded to exactly 4 digits, or to exactly 6
digits precisely when the value exceeds 0xFFFF.  For a hex-digit
string input the pad target is instead chosen by the input's length:
6 when the input has more than 4 characters, else 4 (so inputs with
leading zeros can be 6-padded although their value fits in 4 digits,
and inputs longer than 6 characters are returned unpadded). -/
theorem c8_code_point_padding (n : Nat) (s : String)
    (hn : n ≤ 0x10FFFF)
    (hs1 : s.data ≠ [])
    (hs2 : ∀ c ∈ s.data, isHexDigitCh c = true)
    (hs3 : parseHexL s.data ≤ 0x10FFFF) :
    code_point_of_int n = .ok (zfill (natToHexU n) (if 0xFFFF < n then 6 else 4))
      ∧ (zfill (natToHexU n) (if 0xFFFF < n then 6 else 4)).length
          = (if 0xFFFF < n then 6 else 4)
      ∧ code_point_of_str s
          = .ok (zfill ⟨s.data.map Char.toUpper⟩ (if 4 < s.data.length then 6 else 4)) := by
  have hdshape := toHexDigitsAux_shape n n
  have hdne : toHexDigits n ≠ [] := toHexDigitsAux_ne_nil n n
  have hdlen4 : (toHexDigits n).length ≤ 4 ↔ n < 65536 :=
    toHexDigitsAux_length_le n n le_rfl 4 (by omega)
  have hdlen6 : (toHexDigits n).length ≤ 6 ↔ n < 16777216 :=
    toHexDigitsAux_length_le n n le_rfl 6 (by omega)
  have hparse_d : parseHexL (toHexDigits n) = n := by
    have := parseHexL_map_aux id (fun d hd => by
      simpa using (by decide : ∀ d, d < 16 → hexVal (hexDigitChar d) = d) d hd) n n le_rfl
    simpa using this
  refine ⟨?_, ?_, ?_⟩
  · unfold code_point_of_int codePointCore
    have halnum : (⟨toHexDigits n⟩ : String).data.all Char.isAlphanum = true := by
      rw [List.all_eq_true]
      intro c hc
      obtain ⟨d, hd, rfl⟩ := hdshape c hc
      exact (digit_facts d hd).1
    have hhex : (⟨toHexDigits n⟩ : String).data.all isHexDigitCh = true := by
      rw [List.all_eq_true]
      intro c hc
      obtain ⟨d, hd, rfl⟩ := hdshape c hc
      exact (digit_facts d hd).2.1
    rw [if_neg (by
      show ¬ ¬ _
      push_neg
      exact ⟨hdne, halnum⟩)]
    rw [if_pos hhex]
    show (if parseHexL (toHexDigits n) > 0x10FFFF then _ else _) = _
    rw [hparse_d, if_neg (by omega)]
    have hcontains : ((toHexDigits n).map Char.toUpper).all
        (fun c => hexDigitsU.contains c) = true := by
      rw [List.all_eq_true]
      intro c hc
      rw [List.mem_map] at hc
      obtain ⟨c', hc', rfl⟩ := hc
      obtain ⟨d, hd, rfl⟩ := hdshape c' hc'
      exact (digit_facts d hd).2.2
    rw [if_pos hcontains]
    have hlen_eq : ((toHexDigits n).map Char.toUpper).length = (toHexDigits n).length := by simp
    have hiff : (4 < ((toHexDigits n).map Char.toUpper).length) ↔ (0xFFFF < n) := by
      rw [hlen_eq]
      constructor
      · intro h
        by_contra hcon
        have hx : n < 65536 := by omega
        have := hdlen4.mpr hx
        omega
      · intro h
        by_contra hcon
        push_neg at hcon
        have := hdlen4.mp hcon
        omega
    congr 1
    unfold natToHexU
    by_cases hc : 0xFFFF < n
    · rw [if_pos (hiff.mpr hc), if_pos hc]
    · rw [if_neg (fun h => hc (hiff.mp h)), if_neg hc]
  · have hlen : (natToHexU n).data.length = (toHexDigits n).length := by
      unfold natToHexU
      simp
    have hle : (natToHexU n).data.length ≤ (if 0xFFFF < n then 6 else 4) := by
      rw [hlen]
      by_cases hc : 0xFFFF < n
      · rw [if_pos hc]
        exact hdlen6.mpr (by omega)
      · rw [if_neg hc]
        exact hdlen4.mpr (by omega)
    show (zfill (natToHexU n) _).data.length = _
    unfold zfill
    simp only [List.length_append, List.length_replicate]
    omega
  · unfold code_point_of_str codePointCore
    have halnum : s.data.all Char.isAlphanum = true := by
      rw [List.all_eq_true]
      intro c hc
      exact (hexDigit_char_facts c (hs2 c hc)).1
    have hhex : s.data.all isHexDigitCh = true := by
      rw [List.all_eq_true]
      intro c hc
      exact hs2 c hc
    rw [if_neg (by
      show ¬ ¬ _
      push_neg
      exact ⟨hs1, halnum⟩)]
    rw [if_pos hhex]
    show (if parseHexL s.data > 0x10FFFF then _ else _) = _
    rw [if_neg (by omega)]
    have hcontains : (s.data.map Char.toUpper).all
        (fun c => hexDigitsU.contains c) = true := by
      rw [List.all_eq_true]
      intro c hc
      rw [List.mem_map] at hc
      obtain ⟨c', hc', rfl⟩ := hc
      exact (hexDigit_char_facts c' (hs2 c' hc')).2
    rw [if_pos hcontains]
    have hlen_eq : (s.data.map Char.toUpper).length = s.data.length := by simp
    congr 1
    rw [hlen_eq]

/-- Witness for C8 at the integer 0x10000 (5 digits, padded to 6) and
the string ab (value 171, padded to 4). -/
theorem c8_code_point_padding_witness :
    (65536 ≤ 0x10FFFF)
      ∧ (("ab" : String).data ≠ [])
      ∧ (∀ c ∈ ("ab" : String).data, isHexDigitCh c = true)
      ∧ (parseHexL ("ab" : String).data ≤ 0x10FFFF)
      ∧ (code_point_of_int 65536
            = .ok (zfill (natToHexU 65536) (if 0xFFFF < 65536 then 6 else 4))
          ∧ (zfill (natToHexU 65536) (if 0xFFFF < 65536 then 6 else 4)).length
              = (if 0xFFFF < 65536 then 6 else 4)
          ∧ code_point_of_str "ab"
              = .ok (zfill ⟨("ab" : String).data.map Char.toUpper⟩
                  (if 4 < ("ab" : String).data.length then 6 else 4))) :=
  ⟨by decide, by decide, by decide, by decide,
    c8_code_point_padding 65536 "ab" (by decide) (by decide) (by decide) (by decide)⟩

/-- State of a Pattern dataclass (glyphs.py): the raster, the width,
and the stored optional height field (None maps to none). -/
structure PatternS where
  data : List Int
  width : Int
  heightOpt : Option Int
deriving DecidableEq

/-- Model of Pattern.__post_init__ (glyphs.py): width must be in the
open-closed range (2, 16]; a missing height is inferred as
len(data) // width and the length must divide evenly; the product must
match the data length; the height must also lie in (2, 16]. -/
def mkPattern (data : List Int) (width : Int) (height : Option Int) : Except String PatternS :=
  if width ≤ 2 then .error "The width must be greater than 2 pixels."
  else if width > 16 then .error "The width must be less than 16 pixels."
  else
    match height with
    | none =>
      let h := (data.length : Int) / width
      if (data.length : Int) % width ≠ 0 then
        .error "The length of the data must be divisible by width."
      else if h * width ≠ (data.length : Int) then
        .error "The length of the data must be equal to width * height."
      else if h ≤ 2 then .error "The height must be greater than 2 pixels."
      else if h > 16 then .error "The height must be less than 16 pixels."
      else .ok ⟨data, width, some h⟩
    | some h =>
      if h * width ≠ (data.length : Int) then
        .error "The length of the data must be equal to width * height."
      else if h ≤ 2 then .error "The height must be greater than 2 pixels."
      else if h > 16 then .error "The height must be less than 16 pixels."
      else .ok ⟨data, width, some h⟩

/-- Model of SearchPattern.__post_init__ (glyphs.py).  The subclass
overrides Pattern.__post_init__ without calling it, so only the value
domain of the data is validated: every entry must be 0 or 1. -/
def mkSearchPattern (data : List Int) (width : Int) (height : Option Int) :
    Except String PatternS :=
  if ¬ (data.all fun i => i == 0 || i == 1) then
    .error "The pattern data must be a list of integers 0 and 1."
  else .ok ⟨data, width, height⟩

/-- Model of ReplacePattern.__post_init__ (glyphs.py).  As with
SearchPattern, the override skips all dimension checks: every entry
must be 0, 1 or -1 and nothing else is validated. -/
def mkReplacePattern (data : List Int) (width : Int) (height : Option Int) :
    Except String PatternS :=
  if ¬ (data.all fun i => i == 0 || i == 1 || i == -1) then
    .error "The pattern data must be a list of integers 0, 1, and -1."
  else .ok ⟨data, width, height⟩

/-- Boolean search-pattern domain check as a proposition. -/
theorem all01_iff (data : List Int) :
    (data.all fun i => i == 0 || i == 1) = true ↔ ∀ x ∈ data, x = 0 ∨ x = 1 := by
  simp [List.all_eq_true]

/-- Boolean replace-pattern domain check as a proposition. -/
theorem all01m_iff (data : List Int) :
    (data.all fun i => i == 0 || i == 1 || i == -1) = true
      ↔ ∀ x ∈ data, x = 0 ∨ x = 1 ∨ x = -1 := by
  simp [List.all_eq_true, or_assoc]

/-- C4 (amended). Pattern construction fails exactly when the width is
outside (2, 16], the explicit or inferred height is outside (2, 16],
the data length is not divisible by the width (height omitted), or
width*height differs from the data length.  SearchPattern and
ReplacePattern, however, override the validation and accept any
dimensions: their construction succeeds precisely when every data
value lies in the allowed domain: 0 and 1 for search patterns, with
-1 also allowed for replace patterns. -/
theorem c4_pattern_validation (data : List Int) (w : Int) (h : Option Int) :
    (isOkE (mkPattern data w h) = true
        ↔ (2 < w ∧ w ≤ 16
            ∧ (h = none → (data.length : Int) % w = 0
                ∧ 2 < (data.length : Int) / w ∧ (data.length : Int) / w ≤ 16)
            ∧ (∀ hh, h = some hh → hh * w = (data.length : Int) ∧ 2 < hh ∧ hh ≤ 16)))
      ∧ (isOkE (mkSearchPattern data w h) = true ↔ ∀ x ∈ data, x = 0 ∨ x = 1)
      ∧ (isOkE (mkReplacePattern data w h) = true ↔ ∀ x ∈ data, x = 0 ∨ x = 1 ∨ x = -1) := by
  refine ⟨?_, ?_, ?_⟩
  · rcases h with _ | hh
    · unfold mkPattern
      dsimp only
      split_ifs with h1 h2 h3 h4 h5 h6
      · exact iff_of_false (by simp [isOkE]) (fun hx => by omega)
      · exact iff_of_false (by simp [isOkE]) (fun hx => by omega)
      · exact iff_of_false (by simp [isOkE]) (fun hx => h3 (hx.2.2.1 rfl).1)
      · exact absurd (Int.ediv_mul_cancel (Int.dvd_of_emod_eq_zero (not_not.mp h3))) h4
      · refine iff_of_false (by simp [isOkE]) (fun hx => ?_)
        have := (hx.2.2.1 rfl).2.1
        omega
      · refine iff_of_false (by simp [isOkE]) (fun hx => ?_)
        have := (hx.2.2.1 rfl).2.2
        omega
      · refine iff_of_true (by simp [isOkE]) ?_
        exact ⟨by omega, by omega,
          fun _ => ⟨not_not.mp h3, by omega, by omega⟩,
          fun hh hcon => hcon.elim⟩
    · unfold mkPattern
      dsimp only
      split_ifs with h1 h2 h3 h4 h5
      · exact iff_of_false (by simp [isOkE]) (fun hx => by omega)
      · exact iff_of_false (by simp [isOkE]) (fun hx => by omega)
      · refine iff_of_false (by simp [isOkE]) (fun hx => ?_)
        exact h3 (hx.2.2.2 hh rfl).1
      · refine iff_of_false (by simp [isOkE]) (fun hx => ?_)
        have := (hx.2.2.2 hh rfl).2.1
        omega
      · refine iff_of_false (by simp [isOkE]) (fun hx => ?_)
        have := (hx.2.2.2 hh rfl).2.2
        omega
      · refine iff_of_true (by simp [isOkE]) ?_
        refine ⟨by omega, by omega, fun hcon => hcon.elim, fun hh' heq => ?_⟩
        injection heq with he
        subst he
        exact ⟨not_not.mp h3, by omega, by omega⟩
  · unfold mkSearchPattern
    split_ifs with h1
    · exact iff_of_true (by simp [isOkE]) ((all01_iff data).mp h1)
    · exact iff_of_false (by simp [isOkE]) (fun hall => h1 ((all01_iff data).mpr hall))
  · unfold mkReplacePattern
    split_ifs with h1
    · exact iff_of_true (by simp [isOkE]) ((all01m_iff data).mp h1)
    · exact iff_of_false (by simp [isOkE]) (fun hall => h1 ((all01m_iff data).mpr hall))

/-- C4 counterexample. The claim requires SearchPattern and
ReplacePattern to reject width 2 just as Pattern does, but both accept
the 2-wide pattern [0, 1, 0, 1] that Pattern rejects. -/
theorem c4_counterexample :
    isOkE (mkSearchPattern [0, 1, 0, 1] 2 none) = true
      ∧ isOkE (mkReplacePattern [0, 1, 0, 1] 2 none) = true
      ∧ isOkE (mkPattern [0, 1, 0, 1] 2 none) = false := by decide

/-- Model of the module constant COLOR_MAP (glyphs.py): color name to
RGBA value; unknown names are a KeyError, reported as none. -/
def COLOR_MAP_RGBA (name : String) : Option (Nat × Nat × Nat × Nat) :=
  if name = "white" then some (255, 255, 255, 255)
  else if name = "black" then some (0, 0, 0, 255)
  else if name = "transparent" then some (0, 0, 0, 0)
  else none

/-- Model of the module constant COLOR_VALUE_MAP (glyphs.py): RGBA
value to color name; unknown values are a KeyError, reported as none. -/
def COLOR_VALUE_MAP (p : Nat × Nat × Nat × Nat) : Option String :=
  if p = (255, 255, 255, 255) then some "white"
  else if p = (0, 0, 0, 255) then some "black"
  else if p = (0, 0, 0, 0) then some "transparent"
  else none

/-- State of a ColorScheme object (glyphs.py): its name and its color
map from color name to logical bit value. -/
structure ColorSchemeS where
  nameS : String
  colorMap : List (String × Int)
deriving DecidableEq

/-- The black_and_white scheme, the default of the four fixed schemes. -/
def bwScheme : ColorSchemeS := ⟨"black_and_white", [("white", 0), ("black", 1)]⟩

/-- The transparent_and_white scheme. -/
def twScheme : ColorSchemeS := ⟨"transparent_and_white", [("transparent", 0), ("white", 1)]⟩

/-- Dictionary lookup color_map[name]; a missing key is a KeyError,
reported as none. -/
def schemeValue (cs : ColorSchemeS) (name : String) : Option Int :=
  (cs.colorMap.find? (fun e => e.1 == name)).map (·.2)

/-- State of a Glyph dataclass (glyphs.py).  The fields mirror
_code_point, _width, _hex_str, _data and _color_scheme; the
underscore prefixes are dropped. -/
structure GlyphS where
  codePointF : String
  widthF : Nat := 0
  hexStrF : String := ""
  dataF : List Int := []
  colorF : ColorSchemeS := bwScheme
deriving DecidableEq

/-- Observed value of the hex_str property (glyphs.py): when _hex_str
is empty and the data is non-empty it is recomputed with
Converter.to_hex (which cannot fail on non-empty data).  When both
backing fields are empty the two properties recurse into each other
forever in Python (RecursionError); that divergent case is excluded by
the hypotheses of every theorem below and the model returns the empty
string there. -/
def hexProp (g : GlyphS) : String :=
  if g.hexStrF.isEmpty ∧ ¬ g.dataF.isEmpty then
    match to_hex g.dataF with
    | .ok h => h
    | .error _ => ""
  else g.hexStrF

/-- Observed value of the width property (glyphs.py): a zero width
with a non-empty hex string is inferred from the hex length. -/
def widthProp (g : GlyphS) : Nat :=
  if g.widthF = 0 ∧ ¬ (hexProp g).isEmpty then
    (if (hexProp g).length = 64 then 16 else 8)
  else g.widthF

/-- Observed value of the data property (glyphs.py): empty data with a
non-empty hex string is decoded on demand; the property returns a copy
of the backing list. -/
def dataProp (g : GlyphS) : List Int :=
  if g.dataF.isEmpty ∧ ¬ (hexProp g).isEmpty then to_img_data (hexProp g) (widthProp g) 16
  else g.dataF

/-- Model of Glyph.update_data_at_index (glyphs.py): assigns
self._data[index] = value (Python list indexing, so negative indices
wrap and only indices outside [-len, len) raise IndexError), then
re-encodes self._hex_str from the backing list.  No validation of
value is performed by the code. -/
def update_data_at_index (g : GlyphS) (index : Int) (value : Int) : Except String GlyphS :=
  match pySetList g.dataF index value with
  | none => .error "IndexError: list assignment index out of range"
  | some d =>
    match to_hex d with
    | .error e => .error e
    | .ok h => .ok { g with dataF := d, hexStrF := h }

/-- Model of Validator.hex_str (base.py): empty input is allowed and
maps to the empty string; otherwise the length must be 32 or 64 and,
after uppercasing, every character must be in HEX_CHARS. -/
def hex_str_validate (s : String) : Except String String :=
  if s.isEmpty then .ok ""
  else
    let u : String := ⟨s.data.map Char.toUpper⟩
    if ¬ (u.length = 32 ∨ u.length = 64) then .error "Invalid .hex string length."
    else if ¬ (u.data.all fun c => hexDigitsU.contains c) then
      .error "Invalid character in .hex string."
    else .ok u

/-- Model of Glyph.load_hex (glyphs.py): validates the string, derives
the width from its length and decodes the backing data. -/
def load_hex (g : GlyphS) (s : String) : Except String GlyphS :=
  match hex_str_validate s with
  | .error e => .error e
  | .ok hs =>
    let w : Nat := if hs.length = 64 then 16 else 8
    .ok { g with hexStrF := hs, widthF := w, dataF := to_img_data hs w 16 }

/-- Model of Glyph.load_img (glyphs.py) on the explicit-color-scheme
path (passing a scheme forces color_auto_detect off).  File access is
elided: the image stands as its width and decoded RGBA pixel list.
The code maps every pixel through COLOR_VALUE_MAP and the scheme's
color map, stores the scheme and the image width, and re-encodes
self._hex_str from the freshly computed data; the backing _data field
is left untouched. -/
def load_img_with_scheme (g : GlyphS) (imgWidth : Nat)
    (pixels : List (Nat × Nat × Nat × Nat)) (cs : ColorSchemeS) : Except String GlyphS :=
  match pixels.mapM (fun p => (COLOR_VALUE_MAP p).bind (schemeValue cs)) with
  | none => .error "KeyError: pixel color not mapped"
  | some d =>
    match to_hex d with
    | .error e => .error e
    | .ok h => .ok { g with colorF := cs, widthF := imgWidth, hexStrF := h }

/-- The inner match_pattern closure of Glyph.replace and
Glyph.find_matches (glyphs.py): a position fails as soon as a pattern
cell valued 1 sits over a glyph pixel that is not 1.  Python list
indexing raises IndexError out of range; the getD-based reading here
coincides with the source only on in-range accesses, which is why the
theorems about it carry hypotheses tying the pattern data length to
width times height and the glyph data length to width times 16. -/
def matchPat (pa : List Int) (w h iw : Nat) (d : List Int) (i j : Nat) : Bool :=
  (List.range h).all fun y => (List.range w).all fun x =>
    !((pa.getD (y * w + x) 0 == 1) && !(d.getD ((i + y) * iw + (j + x)) 0 == 1))

/-- Observed height of a pattern: the stored height, or the lazy
len(data) // width of the height property. -/
def heightOf (p : PatternS) : Int :=
  p.heightOpt.getD ((p.data.length : Int) / p.width)

/-- Model of Glyph.find_matches (glyphs.py): rejects patterns wider
than the glyph, then collects every matching anchor in row-major
order (rows outer, columns inner). -/
def find_matches (g : GlyphS) (p : PatternS) : Except String (List (Nat × Nat)) :=
  if p.width > (widthProp g : Int) then
    .error "The pattern to be searched is larger than the glyph."
  else
    let height := heightOf p
    let image_width := (dataProp g).length / 16
    .ok ((pyRange (16 - height + 1)).flatMap fun i =>
      (pyRange ((image_width : Int) - p.width + 1)).filterMap fun j =>
        if matchPat p.data p.width.toNat height.toNat image_width (dataProp g) i j then
          some (i, j)
        else none)

/-- Stable insertion into a sorted list: x goes before the first
element y with le x y, matching the order Python's stable sort
produces when le is a total preorder. -/
def insertSorted {α : Type} (le : α → α → Bool) (x : α) : List α → List α
  | [] => [x]
  | y :: ys => if le x y then x :: y :: ys else y :: insertSorted le x ys

/-- Insertion sort driven by a boolean comparison. -/
def sortByB {α : Type} (le : α → α → Bool) (l : List α) : List α :=
  l.foldr (insertSorted le) []

/-- Python string comparison (less or equal): lexicographic by code
point. -/
def pyCharListLe : List Char → List Char → Bool
  | [], _ => true
  | _ :: _, [] => false
  | a :: as, b :: bs =>
    if a.toNat < b.toNat then true
    else if b.toNat < a.toNat then false
    else pyCharListLe as bs

/-- Python string comparison on String values. -/
def pyStrLe (a b : String) : Bool := pyCharListLe a.data b.data

/-- State of a GlyphSet (glyphs.py): the insertion-ordered _glyphs
dictionary as an association list with unique keys. -/
structure GlyphSetS where
  entries : List (String × GlyphS)
deriving DecidableEq

/-- Model of GlyphSet.sort_glyphs (glyphs.py): fails on an empty set,
otherwise reorders the dictionary by int(code_point, 16). -/
def sort_glyphs (gs : GlyphSetS) : Except String GlyphSetS :=
  if gs.entries.isEmpty then .error "Cannot sort an empty glyph set."
  else .ok ⟨sortByB (fun a b => parseHex a.1 ≤ parseHex b.1) gs.entries⟩

/-- Model of the glyphs property (glyphs.py): sorts the set in place
(propagating the empty-set failure) and returns the dictionary. -/
def glyphs_prop (gs : GlyphSetS) : Except String (List (String × GlyphS)) :=
  (sort_glyphs gs).map (fun g => g.entries)

/-- Model of the code_points property (glyphs.py): sorts the set in
place (propagating the empty-set failure) and returns the keys. -/
def code_points_prop (gs : GlyphSetS) : Except String (List String) :=
  (sort_glyphs gs).map (fun g => g.entries.map (fun e => e.1))

/-- Model of len(glyph_set). -/
def len_glyph_set (gs : GlyphSetS) : Nat := gs.entries.length

/-- Model of str(glyph_set) (glyphs.py __str__). -/
def str_glyph_set (gs : GlyphSetS) : String :=
  if gs.entries.isEmpty then "Unifont Glyph Set (0 glyphs)"
  else "Unifont Glyph Set (" ++ Nat.repr gs.entries.length ++ " glyphs)"

/-- Model of GlyphSet.save_hex_file (glyphs.py): the written lines, in
the order produced by sorted(self._glyphs.items()), which compares the
code-point keys as Python strings (lexicographically), one line
CODEPOINT:HEXSTRING per glyph. -/
def save_hex_lines (gs : GlyphSetS) : List String :=
  (sortByB (fun a b => pyStrLe a.1 b.1) gs.entries).map
    (fun e => e.1 ++ ":" ++ hexProp e.2 ++ "\n")

/-- Encoding a non-empty raster never fails and yields the padded
uppercase rendering of the packed integer. -/
theorem to_hex_ok (d : List Int) (hne : d ≠ []) :
    to_hex d = .ok (zfill ⟨(toHexDigits (bitsNat d)).map Char.toUpper⟩
      (if d.length = 128 then 32 else 64)) := by
  unfold to_hex
  rw [if_neg (by simp [hne])]

/-- Item assignment with an index outside [-len, len) is an
IndexError. -/
theorem pySetList_eq_none {α : Type} (l : List α) (i : Int) (v : α)
    (hout : i < -(l.length : Int) ∨ (l.length : Int) ≤ i) : pySetList l i v = none := by
  unfold pySetList
  dsimp only
  rw [if_neg (by split <;> omega)]

/-- Item assignment with an index inside [-len, len) updates the entry
at the wrapped position. -/
theorem pySetList_eq_some {α : Type} (l : List α) (i : Int) (v : α)
    (hin1 : -(l.length : Int) ≤ i) (hin2 : i < (l.length : Int)) :
    pySetList l i v = some (l.set (if i < 0 then i + l.length else i).toNat v) := by
  unfold pySetList
  dsimp only
  rw [if_pos (by split <;> omega)]

/-- C6 counterexample. The claim says every index outside
[0, width*16) fails with an out-of-bounds error and that the value
must be 0 or 1, but on a materialized 8-wide glyph the Python
negative index -1 succeeds, and so does the non-binary value 5 at
index 0: neither the index range of the claim nor the value domain is
enforced. -/
theorem c6_counterexample :
    isOkE (update_data_at_index
        ⟨"0041", 8, "00000000000000000000000000000000", List.replicate 128 0, bwScheme⟩
        (-1) 1) = true
      ∧ ¬ (0 ≤ (-1 : Int))
      ∧ isOkE (update_data_at_index
          ⟨"0041", 8, "00000000000000000000000000000000", List.replicate 128 0, bwScheme⟩
          0 5) = true := ⟨rfl, by decide, rfl⟩

/-- C6 (amended). With the backing data materialized (length equal to
width*16), update_data_at_index with an arbitrary integer value fails
with IndexError exactly for indices outside [-width*16, width*16);
indices in [-width*16, -1] wrap around Python-style; on success the
pixel at the wrapped position is set to the given value (the code
performs no validation of the value) and hex_str is re-encoded to
match the updated backing data. -/
theorem c6_update_data_at_index (g : GlyphS) (index value : Int)
    (hmat : g.dataF.length = g.widthF * 16)
    (hw : 0 < g.widthF) :
    ((index < -(g.dataF.length : Int) ∨ (g.dataF.length : Int) ≤ index) →
        update_data_at_index g index value
          = .error "IndexError: list assignment index out of range")
      ∧ (-(g.dataF.length : Int) ≤ index → index < (g.dataF.length : Int) →
          ∃ g', update_data_at_index g index value = .ok g'
            ∧ g'.dataF = g.dataF.set (if index < 0 then index + g.dataF.length
                else index).toNat value
            ∧ to_hex g'.dataF = .ok g'.hexStrF
            ∧ g'.widthF = g.widthF ∧ g'.codePointF = g.codePointF) := by
  constructor
  · intro hout
    unfold update_data_at_index
    rw [pySetList_eq_none g.dataF index value hout]
  · intro h1 h2
    unfold update_data_at_index
    rw [pySetList_eq_some g.dataF index value h1 h2]
    have hne : g.dataF.set (if index < 0 then index + g.dataF.length
        else index).toNat value ≠ [] := by
      have hset : (g.dataF.set (if index < 0 then index + g.dataF.length
          else index).toNat value).length = g.dataF.length := List.length_set _ _ _
      intro hl
      rw [hl] at hset
      simp only [List.length_nil] at hset
      omega
    dsimp only
    rw [to_hex_ok _ hne]
    exact ⟨_, rfl, rfl, to_hex_ok _ hne, rfl, rfl⟩

/-- Witness for C6 at a concrete materialized glyph and index 5. -/
theorem c6_update_data_at_index_witness :
    ((⟨"0041", 8, "00000000000000000000000000000000",
        List.replicate 128 0, bwScheme⟩ : GlyphS).dataF.length
        = (⟨"0041", 8, "00000000000000000000000000000000",
            List.replicate 128 0, bwScheme⟩ : GlyphS).widthF * 16)
      ∧ (∃ g', update_data_at_index
            ⟨"0041", 8, "00000000000000000000000000000000",
              List.replicate 128 0, bwScheme⟩ 5 1 = .ok g'
          ∧ g'.dataF = (List.replicate 128 0).set 5 1
          ∧ to_hex g'.dataF = .ok g'.hexStrF
          ∧ g'.widthF = 8 ∧ g'.codePointF = "0041") := by
  refine ⟨by decide, ?_⟩
  have h := (c6_update_data_at_index
    ⟨"0041", 8, "00000000000000000000000000000000", List.replicate 128 0, bwScheme⟩
    5 1 (by decide) (by decide)).2 (by decide) (by decide)
  simpa using h

/-- On a glyph with materialized backing data the data property is the
backing list. -/
theorem dataProp_of_materialized (g : GlyphS) (hne : g.dataF ≠ []) :
    dataProp g = g.dataF := by
  unfold dataProp
  rw [if_neg (by simp [hne])]

/-- On a glyph with a positive stored width the width property is the
stored width. -/
theorem widthProp_of_pos (g : GlyphS) (hw : g.widthF ≠ 0) : widthProp g = g.widthF := by
  unfold widthProp
  rw [if_neg (by simp [hw])]

/-- C10. On the empty GlyphSet the glyphs and code_points properties
fail (both sort the set first, and sorting an empty set fails), while
len and str succeed and report zero glyphs. -/
theorem c10_empty_glyph_set_behavior :
    glyphs_prop ⟨[]⟩ = .error "Cannot sort an empty glyph set."
      ∧ code_points_prop ⟨[]⟩ = .error "Cannot sort an empty glyph set."
      ∧ len_glyph_set ⟨[]⟩ = 0
      ∧ str_glyph_set ⟨[]⟩ = "Unifont Glyph Set (0 glyphs)" :=
  ⟨rfl, rfl, rfl, rfl⟩

/-- All-zero 32-character hex string. -/
def c3HexA : String := "00000000000000000000000000000000"

/-- A 32-character hex string ending in FF. -/
def c3HexB : String := "000000000000000000000000000000FF"

/-- A glyph set holding the canonical 4-digit key FFFF (value 65535)
and the canonical 6-digit key 010000 (value 65536), in that insertion
order. -/
def c3Set : GlyphSetS :=
  ⟨[("FFFF", ⟨"FFFF", 8, c3HexA, [], bwScheme⟩),
    ("010000", ⟨"010000", 8, c3HexB, [], bwScheme⟩)]⟩

/-- C3. save_hex_file writes one CODEPOINT:HEXSTRING line per glyph
but orders lines with sorted(items), which compares the key strings
lexicographically: the 6-digit key 010000 (value 65536) is written
before the 4-digit key FFFF (value 65535), violating the claimed
ascending numeric code-point order. -/
theorem c3_save_hex_file_order :
    save_hex_lines c3Set = ["010000:" ++ c3HexB ++ "\n", "FFFF:" ++ c3HexA ++ "\n"]
      ∧ parseHex "FFFF" < parseHex "010000" :=
  ⟨rfl, by decide⟩

/-- The materialized raster of the C5 glyph: first pixel inked, 128
entries (8-wide glyph). -/
def c5Data : List Int := 1 :: List.replicate 127 0

/-- The hex encoding of c5Data. -/
def c5Hex : String := "80000000000000000000000000000000"

/-- An 8-wide glyph whose backing data and hex string are both
materialized and consistent. -/
def c5Glyph : GlyphS := ⟨"0041", 8, c5Hex, c5Data, bwScheme⟩

/-- A 16x16 black-and-white image: one black pixel then 255 white. -/
def c5Pixels : List (Nat × Nat × Nat × Nat) :=
  (0, 0, 0, 255) :: List.replicate 255 (255, 255, 255, 255)

/-- The hex encoding of the image of c5Pixels under black_and_white. -/
def c5Hex2 : String :=
  "8000000000000000000000000000000000000000000000000000000000000000"

/-- C5. Glyph.load_img re-encodes _hex_str from the freshly decoded
image but never assigns _data, so on a glyph with materialized backing
data the observed hex string (the new encoding) and the observed data
(the stale raster) disagree: the observed hex_str is not the encoding
of the observed data, breaking the claimed invariant. -/
theorem c5_load_img_breaks_invariant :
    load_img_with_scheme c5Glyph 16 c5Pixels bwScheme
        = .ok { c5Glyph with widthF := 16, hexStrF := c5Hex2 }
      ∧ hexProp { c5Glyph with widthF := 16, hexStrF := c5Hex2 } = c5Hex2
      ∧ dataProp { c5Glyph with widthF := 16, hexStrF := c5Hex2 } = c5Data
      ∧ to_hex c5Data = .ok c5Hex
      ∧ c5Hex ≠ c5Hex2 :=
  ⟨rfl, rfl, rfl, rfl, by decide⟩

/-- Pairwise order of a flattened nested list, from pairwise outer
order, pairwise inner order, and a cross relation. -/
theorem pairwise_flatMap {α β : Type} {R : β → β → Prop} {S : α → α → Prop}
    (o : List α) (f : α → List β)
    (ho : o.Pairwise S)
    (hin : ∀ a ∈ o, (f a).Pairwise R)
    (hcross : ∀ a b, S a b → ∀ x ∈ f a, ∀ y ∈ f b, R x y) :
    (o.flatMap f).Pairwise R := by
  induction o with
  | nil => simp
  | cons a o ih =>
    rw [List.flatMap_cons, List.pairwise_append]
    rcases List.pairwise_cons.mp ho with ⟨hrel, ho'⟩
    refine ⟨hin a (by simp), ih ho' (fun b hb => hin b (by simp [hb])), ?_⟩
    intro x hx y hy
    rw [List.mem_flatMap] at hy
    obtain ⟨b, hb, hyb⟩ := hy
    exact hcross a b (hrel b hb) x hx y hyb

/-- Pairwise order survives filterMap when the partial map respects
the relation. -/
theorem pairwise_filterMap_of {α β : Type} {R : β → β → Prop} {S : α → α → Prop}
    (f : α → Option β) :
    ∀ (l : List α), l.Pairwise S →
    (∀ a b, S a b → ∀ x, f a = some x → ∀ y, f b = some y → R x y) →
    (l.filterMap f).Pairwise R := by
  intro l
  induction l with
  | nil => intro _ _; simp
  | cons a l ih =>
    intro hl h
    rcases List.pairwise_cons.mp hl with ⟨hrel, hl'⟩
    rw [List.filterMap_cons]
    cases hfa : f a with
    | none => exact ih hl' h
    | some x =>
      rw [List.pairwise_cons]
      refine ⟨?_, ih hl' h⟩
      intro y hy
      rw [List.mem_filterMap] at hy
      obtain ⟨b, hb, hyb⟩ := hy
      exact h a b (hrel b hb) x hfa y hyb

/-- The match predicate of find_matches as a proposition: every
pattern cell valued 1 must sit over a glyph pixel valued 1. -/
theorem matchPat_iff (pa : List Int) (w h iw : Nat) (d : List Int) (i j : Nat) :
    matchPat pa w h iw d i j = true
      ↔ ∀ y x : Nat, y < h → x < w →
          pa.getD (y * w + x) 0 = 1 → d.getD ((i + y) * iw + (j + x)) 0 = 1 := by
  unfold matchPat
  simp only [List.all_eq_true, List.mem_range, Bool.not_eq_true', Bool.and_eq_false_iff,
    Bool.not_eq_false, beq_iff_eq, decide_eq_true_eq]
  constructor
  · intro hx y x hy hxx hpa
    rcases hx y hy x hxx with h1 | h2
    · exact absurd hpa (by simpa using h1)
    · simpa using h2
  · intro hx y hy x hxx
    by_cases hpa : pa.getD (y * w + x) 0 = 1
    · exact Or.inr (by simpa using hx y x hy hxx hpa)
    · exact Or.inl (by simpa using hpa)

/-- C9. For a materialized glyph and a search pattern of observed
height H in [1, 16] and width W, find_matches with W at most the glyph
width returns exactly the anchors (row, col) with row + H at most 16
and col + W at most the width at which every pattern cell valued 1
lies over a glyph pixel valued 1 (cells valued 0 impose nothing), in
row-major scan order; when W exceeds the glyph width it fails with the
pattern-too-wide error. -/
theorem c9_find_matches (g : GlyphS) (p : PatternS) (H W : Nat)
    (hmat : g.dataF.length = g.widthF * 16)
    (hwpos : 0 < g.widthF)
    (hH : (H : Int) = heightOf p)
    (hW : (W : Int) = p.width)
    (hH1 : 1 ≤ H) (hH16 : H ≤ 16)
    (hWpos : 0 < W)
    (hplen : p.data.length = W * H) :
    (W ≤ g.widthF →
        ∃ L, find_matches g p = .ok L
          ∧ (∀ row col : Nat, ((row, col) ∈ L ↔
              (row + H ≤ 16 ∧ col + W ≤ g.widthF
                ∧ ∀ y x : Nat, y < H → x < W →
                    p.data.getD (y * W + x) 0 = 1 →
                    g.dataF.getD ((row + y) * g.widthF + (col + x)) 0 = 1)))
          ∧ List.Pairwise (fun a b : Nat × Nat => a.1 < b.1 ∨ (a.1 = b.1 ∧ a.2 < b.2)) L)
      ∧ (g.widthF < W →
          find_matches g p = .error "The pattern to be searched is larger than the glyph.") := by
  have hdne : g.dataF ≠ [] := by
    intro h
    rw [h] at hmat
    simp at hmat
    omega
  have hd : dataProp g = g.dataF := dataProp_of_materialized g hdne
  have hwp : widthProp g = g.widthF := widthProp_of_pos g (by omega)
  have hiw : g.dataF.length / 16 = g.widthF := by omega
  have hHt : (heightOf p).toNat = H := by omega
  have hWt : p.width.toNat = W := by omega
  constructor
  · intro hle
    unfold find_matches
    rw [hwp, hd, hiw]
    rw [if_neg (by omega)]
    dsimp only
    have hr1 : pyRange (16 - heightOf p + 1) = List.range (17 - H) := by
      unfold pyRange
      congr 1
      omega
    have hr2 : pyRange ((g.widthF : Int) - p.width + 1) = List.range (g.widthF - W + 1) := by
      unfold pyRange
      congr 1
      omega
    rw [hr1, hr2, hHt, hWt]
    refine ⟨_, rfl, ?_, ?_⟩
    · intro row col
      simp only [List.mem_flatMap, List.mem_filterMap, List.mem_range]
      constructor
      · rintro ⟨i, hi, j, hj, hij⟩
        split at hij
        case isTrue hm =>
          injection hij with hij
          injection hij with h1 h2
          subst h1
          subst h2
          refine ⟨by omega, by omega, ?_⟩
          exact (matchPat_iff _ _ _ _ _ _ _).mp hm
        case isFalse => exact absurd hij (by simp)
      · rintro ⟨hrow, hcol, hpred⟩
        refine ⟨row, by omega, col, by omega, ?_⟩
        rw [if_pos ((matchPat_iff _ _ _ _ _ _ _).mpr hpred)]
    · apply pairwise_flatMap (S := fun a b : Nat => a < b)
      · exact List.pairwise_lt_range _
      · intro a _
        apply pairwise_filterMap_of _ _ (List.pairwise_lt_range _)
        intro j1 j2 hjj x hx y hy
        split at hx
        case isFalse => exact absurd hx (by simp)
        case isTrue =>
          split at hy
          case isFalse => exact absurd hy (by simp)
          case isTrue =>
            injection hx with hx
            injection hy with hy
            subst hx
            subst hy
            exact Or.inr ⟨rfl, hjj⟩
      · intro a b hab x hx y hy
        rw [List.mem_filterMap] at hx hy
        obtain ⟨j1, _, hx⟩ := hx
        obtain ⟨j2, _, hy⟩ := hy
        split at hx
        case isFalse => exact absurd hx (by simp)
        case isTrue =>
          split at hy
          case isFalse => exact absurd hy (by simp)
          case isTrue =>
            injection hx with hx
            injection hy with hy
            subst hx
            subst hy
            exact Or.inl hab
  · intro hgt
    unfold find_matches
    rw [hwp]
    rw [if_pos (by omega)]

/-- The raster of the C9 witness glyph: a solid 3x3 block of ink in
the top-left corner of an 8-wide glyph. -/
def c9Data : List Int :=
  (List.range 128).map (fun k => if k % 8 < 3 ∧ k / 8 < 3 then 1 else 0)

/-- The C9 witness glyph, with materialized raster. -/
def c9Glyph : GlyphS := ⟨"0043", 8, "", c9Data, bwScheme⟩

/-- The all-ones 3x3 search pattern of the C9 witness. -/
def c9SearchP : PatternS := ⟨List.replicate 9 1, 3, some 3⟩

/-- Witness for C9 at the spec's concrete glyph and pattern. -/
theorem c9_find_matches_witness :
    (c9Glyph.dataF.length = c9Glyph.widthF * 16)
      ∧ (3 : Int) = heightOf c9SearchP
      ∧ (∃ L, find_matches c9Glyph c9SearchP = .ok L
          ∧ (∀ row col : Nat, ((row, col) ∈ L ↔
              (row + 3 ≤ 16 ∧ col + 3 ≤ c9Glyph.widthF
                ∧ ∀ y x : Nat, y < 3 → x < 3 →
                    c9SearchP.data.getD (y * 3 + x) 0 = 1 →
                    c9Glyph.dataF.getD ((row + y) * c9Glyph.widthF + (col + x)) 0 = 1)))
          ∧ List.Pairwise (fun a b : Nat × Nat => a.1 < b.1 ∨ (a.1 = b.1 ∧ a.2 < b.2)) L) := by
  refine ⟨by decide, by decide, ?_⟩
  exact (c9_find_matches c9Glyph c9SearchP 3 3 (by decide) (by decide) (by decide)
    (by decide) (by decide) (by decide) (by decide) (by decide)).1 (by decide)

/-- Page image width in pixels (page_converter.py UNIHEX_WIDTH). -/
def UNIHEX_WIDTH : Nat := 18 * 32

/-- Page image height in pixels (page_converter.py UNIHEX_HEIGHT). -/
def UNIHEX_HEIGHT : Nat := 17 * 32

/-- The hex payloads of HEX_DIGIT_STRINGS (page_converter.py), in
order: digits 0-9, A-F, then U and the plus separator; the
CODEPOINT: prefixes are already split off as in
_build_hex_digit_bitmaps. -/
def HEX_DIGIT_PARTS : List String :=
  ["00000000182442424242424224180000",
   "000000000818280808080808083E0000",
   "000000003C4242020C102040407E0000",
   "000000003C4242021C020242423C0000",
   "00000000040C142444447E0404040000",
   "000000007E4040407C020202423C0000",
   "000000001C2040407C424242423C0000",
   "000000007E0202040404080808080000",
   "000000003C4242423C424242423C0000",
   "000000003C4242423E02020204380000",
   "0000000018242442427E424242420000",
   "000000007C4242427C424242427C0000",
   "000000003C42424040404042423C0000",
   "00000000784442424242424244780000",
   "000000007E4040407C404040407E0000",
   "000000007E4040407C40404040400000",
   "000000004242424242424242423C0000",
   "0000000000000808087F080808000000"]

/-- Two hex characters of a payload starting at offset j, parsed as a
byte: the model of int(data[j:j+2], 16).  On the 32- and 64-character
payloads used here the slice is always full; a short slice would be a
ValueError in Python. -/
def byteAt (l : List Char) (j : Nat) : Nat := parseHexL ((l.drop j).take 2)

/-- The width classification of _hex2bit_bytes (page_converter.py). -/
def hex2bit_width (len : Nat) : Nat :=
  if len ≤ 34 then 0 else if len ≤ 66 then 1 else if len ≤ 98 then 3 else 4

/-- Model of _hex2bit_bytes (page_converter.py) as a function from row
and byte column to the byte value: rows 8..23 hold the glyph bytes
starting at column k (1 for narrow widths, 0 otherwise), reading two
hex characters per byte left to right; everything else is 0.  The
imperative loop advances j by two per byte written, which is exactly
the arithmetic offset used here. -/
def hex2bit (s : List Char) : Nat → Nat → Nat := fun i b =>
  let w := hex2bit_width s.length
  let k := if w > 1 then 0 else 1
  let bpr := 1 + (if w > 0 then 1 else 0) + (if w > 1 then 1 else 0) + (if w > 2 then 1 else 0)
  if 8 ≤ i ∧ i < 24 ∧ k ≤ b ∧ b < k + bpr then byteAt s ((i - 8) * (2 * bpr) + 2 * (b - k))
  else 0

/-- Model of _build_hex_digit_bitmaps (page_converter.py): inverted
byte rows of the 18 header glyphs. -/
def hexbitsF (idx : Nat) (row : Nat) : Nat :=
  bnot8 (hex2bit (HEX_DIGIT_PARTS.getD idx "").data row 1)

/-- Pointwise update of a two-argument bitmap function, standing for
one Python assignment bitmap[r][c] = v. -/
def upd2 (f : Nat → Nat → Nat) (r c v : Nat) : Nat → Nat → Nat :=
  fun r' c' => if r' = r ∧ c' = c then v else f r' c'

/-- A page image as its consumers see it: its pixel size and the RGBA
view of its pixels (a Pillow mode-L pixel v reads back as the RGBA
value (v, v, v, 255) after convert, which is what image_to_hex_page
does on load). -/
structure PageImage where
  wP : Nat
  hP : Nat
  pixRGBA : List (Nat × Nat × Nat × Nat)

/-- Model of _render_unihex2bmp_page (page_converter.py) with
flip=True, the only mode hex_page_to_image uses.  The mutable 544x72
byte matrix becomes a function from row and byte column built by
pointwise updates; the glyph set lookup becomes a function from page
offset to the optional hex string of the glyph stored at that code
point (absent entries and entries with an empty hex string are
skipped, as in the source).  The page range check of _normalize_page
lives in image_to_hex_page below; rendering is modelled on in-range
pages. -/
def render_unihex2bmp_page (glyphMap : Nat → Option String) (unipage : Nat) : PageImage :=
  let b0 : Nat → Nat → Nat := fun _ _ => 0xFF
  let p3 := (unipage >>> 12) &&& 0xF
  let p2 := (unipage >>> 8) &&& 0xF
  let p1 := (unipage >>> 4) &&& 0xF
  let p0 := unipage &&& 0xF
  let b1 := (List.range 32).foldl (fun f i =>
    upd2 (upd2 (upd2 (upd2 (upd2 (upd2 f i 1 (hexbitsF 16 i)) i 2 (hexbitsF 17 i))
      i 3 (hexbitsF p3 i)) i 4 (hexbitsF p2 i)) i 5 (hexbitsF p1 i)) i 6 (hexbitsF p0 i)) b0
  let q3 := (unipage >>> 4) &&& 0xF
  let q2 := unipage &&& 0xF
  let b2 := (List.range 16).foldl (fun f i =>
    (List.range 32).foldl (fun f j =>
      upd2 (upd2 (upd2 (upd2 f
        j (((i + 2) <<< 2) ||| 0) ((hexbitsF q3 j >>> 4) ||| 0xF0))
        j (((i + 2) <<< 2) ||| 1) ((hexbitsF q3 j <<< 4) ||| (hexbitsF q2 j >>> 4)))
        j (((i + 2) <<< 2) ||| 2) ((hexbitsF q2 j <<< 4) ||| (hexbitsF i j >>> 4)))
        j (((i + 2) <<< 2) ||| 3) ((hexbitsF i j <<< 4) ||| 0x0F)) f) b1
  let b3 := (List.range 16).foldl (fun f i =>
    (List.range 32).foldl (fun f j =>
      upd2 f (32 * (i + 1) - 1 + j) 6 (hexbitsF i j)) f) b2
  let b4 := (List.range' 32 512).foldl (fun f i =>
    let i2 := if i &&& 0x1F = 7 then i + 1
      else if i &&& 0x1F = 14 then i + 2
      else if i &&& 0x1F = 22 then i + 1
      else i
    (List.range' 1 17).foldl (fun f j =>
      upd2 f i2 ((j <<< 2) ||| 3) (f i2 ((j <<< 2) ||| 3) &&& 0xFE)) f) b3
  let b5 := (List.range' 31 17 32).foldl (fun f i =>
    (List.range' 2 16).foldl (fun f j =>
      upd2 (upd2 (upd2 (upd2 f i ((j <<< 2) ||| 0) 0x00)
        i ((j <<< 2) ||| 1) 0x81)
        i ((j <<< 2) ||| 2) 0x81)
        i ((j <<< 2) ||| 3) 0x00) f) b4
  let b6 := upd2 b5 31 7 0xFE
  let b7 := (List.range 256).foldl (fun f offset =>
    match glyphMap offset with
    | none => f
    | some hs =>
      if hs.isEmpty then f
      else
        let thischarbyte := offset &&& 0xFF
        let thiscol0 := (thischarbyte &&& 0xF) + 2
        let thischarrow0 := thischarbyte >>> 4
        let thiscol := thischarrow0 + 2
        let thischarrow := thiscol0 - 2
        let toppixelrow := 32 * (thischarrow + 1) - 1
        let charbits := hex2bit hs.data
        let fG := (List.range' 8 16).foldl (fun f i =>
          (List.range 4).foldl (fun f b =>
            let value := bnot8 (charbits i b)
            let value := if b = 3 then value &&& 0xFE else value
            upd2 f (toppixelrow + i) ((thiscol <<< 2) ||| b) value) f) f
        let fG := upd2 fG (toppixelrow + 8) ((thiscol <<< 2) ||| 3)
          (fG (toppixelrow + 8) ((thiscol <<< 2) ||| 3) ||| 1)
        let fG := upd2 fG (toppixelrow + 14) ((thiscol <<< 2) ||| 3)
          (fG (toppixelrow + 14) ((thiscol <<< 2) ||| 3) ||| 1)
        let fG := upd2 fG (toppixelrow + 15) ((thiscol <<< 2) ||| 3)
          (fG (toppixelrow + 15) ((thiscol <<< 2) ||| 3) ||| 1)
        let fG := upd2 fG (toppixelrow + 23) ((thiscol <<< 2) ||| 3)
          (fG (toppixelrow + 23) ((thiscol <<< 2) ||| 3) ||| 1)
        fG) b6
  let pixels := (List.range UNIHEX_HEIGHT).flatMap (fun r =>
    (List.range 72).flatMap (fun byteIdx =>
      ((List.range 8).reverse).map (fun bit =>
        if b7 r byteIdx &&& (1 <<< bit) ≠ 0 then (255 : Nat) else 0)))
  ⟨UNIHEX_WIDTH, UNIHEX_HEIGHT, pixels.map (fun v => (v, v, v, 255))⟩

/-- Model of _background_rgba (page_converter.py): the RGBA value of
the color the scheme maps to 0.  All four fixed schemes have such a
color; the ValueError raised for a malformed scheme is out of reach
here and modelled by a default. -/
def backgroundRGBA (cs : ColorSchemeS) : Nat × Nat × Nat × Nat :=
  match cs.colorMap.find? (fun e => e.2 == 0) with
  | some e => (COLOR_MAP_RGBA e.1).getD (0, 0, 0, 0)
  | none => (0, 0, 0, 0)

/-- Model of _foreground_rgba (page_converter.py), as for the
background. -/
def foregroundRGBA (cs : ColorSchemeS) : Nat × Nat × Nat × Nat :=
  match cs.colorMap.find? (fun e => e.2 == 1) with
  | some e => (COLOR_MAP_RGBA e.1).getD (0, 0, 0, 0)
  | none => (0, 0, 0, 0)

/-- Model of hex_page_to_image (page_converter.py): renders the flip
layout; the black_and_white scheme returns the monochrome mask
directly, any other scheme recolors foreground (mask value below 128)
and background pixels. -/
def hex_page_to_image (glyphMap : Nat → Option String) (page : Nat)
    (color_scheme : ColorSchemeS := bwScheme) : PageImage :=
  let mask := render_unihex2bmp_page glyphMap page
  if color_scheme.nameS = "black_and_white" then mask
  else
    let bg := backgroundRGBA color_scheme
    let fg := foregroundRGBA color_scheme
    ⟨mask.wP, mask.hP, mask.pixRGBA.map (fun p => if p.1 < 128 then fg else bg)⟩

/-- Model of _rgba_to_bits (page_converter.py): maps every pixel
through the inverse color table of the scheme; a pixel outside the
table is a ValueError. -/
def rgbaToBits (pixels : List (Nat × Nat × Nat × Nat)) (scheme : ColorSchemeS) :
    Except String (List Int) :=
  let lookup : (Nat × Nat × Nat × Nat) → Option Int := fun p =>
    (scheme.colorMap.find? (fun e => COLOR_MAP_RGBA e.1 == some p)).map (fun e => e.2)
  match pixels.mapM lookup with
  | none => .error "Invalid pixel RGBA value"
  | some bits => .ok bits

/-- Two-character uppercase hex rendering of a byte, the model of the
Python format expression with 02X on values below 256. -/
def byteToHex2 (v : Nat) : String := ⟨[hexDigitCharU (v / 16 % 16), hexDigitCharU (v % 16)]⟩

/-- Model of image_to_hex_page (page_converter.py).  File access is
elided: the function receives the page image as saved.  It validates
the page range (as _normalize_page does), the presence of a scheme
when auto-detection is off, and the 576x544 dimensions.  With
color_auto_detect left at its default True the source then evaluates
Glyph.auto_detect_color_scheme, an attribute the Glyph class does not
define (the method is named _auto_detect_color_scheme), so execution
stops with an AttributeError.  The remaining branch reconstructs the
byte grid, applies the inverse offset transform, infers each glyph's
byte width, skips blank glyphs when requested, and keys the result by
Validator.code_point of the code point value. -/
def image_to_hex_page (img : PageImage) (page : Nat)
    (color_auto_detect : Bool := true)
    (color_scheme : Option ColorSchemeS := none)
    (skip_blank : Bool := true) : Except String (List (String × String)) :=
  if ¬ (page ≤ 0x10FF) then .error "The page value must be between 0x0 and 0x10FF."
  else if color_scheme = none ∧ color_auto_detect = false then
    .error "Specify a color scheme when auto detection is disabled."
  else if ¬ (img.wP = UNIHEX_WIDTH ∧ img.hP = UNIHEX_HEIGHT) then
    .error "Image dimensions must be 576x544 to match unihex2bmp output."
  else if color_auto_detect then
    .error "AttributeError: type object Glyph has no attribute auto_detect_color_scheme"
  else
    let scheme := match color_scheme with
      | some cs => cs
      | none => bwScheme
    match rgbaToBits img.pixRGBA scheme with
    | .error e => .error e
    | .ok bits =>
      let bitmapR : Nat → Nat → Nat := fun y byteIdx =>
        (List.range 8).foldl (fun v bit =>
          if bits.getD (y * UNIHEX_WIDTH + byteIdx * 8 + (7 - bit)) 1 = 0 then v ||| (1 <<< bit)
          else v) 0
      .ok ((List.range 256).foldl (fun acc offset =>
        let thischarbyte := offset &&& 0xFF
        let thiscol0 := (thischarbyte &&& 0xF) + 2
        let thischarrow0 := thischarbyte >>> 4
        let thiscol := thischarrow0 + 2
        let thischarrow := thiscol0 - 2
        let toppixelrow := 32 * (thischarrow + 1) - 1
        let charbyte : Nat → Nat → Nat := fun i b =>
          if 8 ≤ i ∧ i < 24 then
            (if b = 3 then bnot8 (bitmapR (toppixelrow + i) ((thiscol <<< 2) + b)) &&& 0xFE
             else bnot8 (bitmapR (toppixelrow + i) ((thiscol <<< 2) + b)))
          else 0
        let has_b0 := (List.range' 8 16).any (fun i => charbyte i 0 != 0)
        let has_b2 := (List.range' 8 16).any (fun i => charbyte i 2 != 0)
        let has_b3 := (List.range' 8 16).any (fun i => charbyte i 3 &&& 0xFE != 0)
        let use_bytes : List Nat :=
          if !(has_b0 || has_b2 || has_b3) then [1]
          else if has_b3 || has_b0 then [0, 1, 2, 3]
          else [1, 2]
        let hex_parts : List String := (List.range' 8 16).flatMap (fun i =>
          use_bytes.map (fun b => byteToHex2 (charbyte i b)))
        if skip_blank && hex_parts.all (fun part => part == "00") then acc
        else
          let hex_str := String.join hex_parts
          let code_point_value := (page <<< 8) + offset
          let code_point_str := match code_point_of_int code_point_value with
            | .ok s => s
            | .error _ => ""
          acc ++ [(code_point_str, hex_str)]) [])

/-- The page lookup of the C2 input: a 16-wide glyph at offset 0 and
an 8-wide glyph at offset 1, as in the repository's page round-trip
test. -/
def c2GlyphMap : Nat → Option String :=
  fun o =>
    if o = 0 then some "00FF00FF00FF00FF00FF00FF00FF00FF00FF00FF00FF00FF00FF00FF00FF00FF"
    else if o = 1 then some "FFFFFFFFFFFFFFFFFFFFFFFFFFFFFFFF"
    else none

/-- C2. The claimed round trip never completes: image_to_hex_page
with its default color_auto_detect=True calls
Glyph.auto_detect_color_scheme, which does not exist (the method is
named _auto_detect_color_scheme), so converting a freshly rendered
576x544 page image back fails with an AttributeError instead of
recovering the glyph mapping. -/
theorem c2_round_trip_attribute_error :
    image_to_hex_page (hex_page_to_image c2GlyphMap 0) 0 true none true
      = .error "AttributeError: type object Glyph has no attribute auto_detect_color_scheme" :=
  rfl
